import Mathlib

/-!
Shallow embedding of the CBAIT backtesting repository.

Numeric model: pandas/numpy floats are modelled over the reals; a pandas
series value is `Option ℝ` where `none` is the NaN marker produced by
failed coercion or by `shift`.  IEEE special values that numpy scalar
arithmetic can produce (infinities, NaN) are modelled by `NpFloat`.
Python exceptions are modelled by `Except PyErr`.  Wire-level numeric
strings are parsed into exact rationals (`Option ℚ`), which captures the
decimal CSV/wire values up to the floating round-trip tolerance the spec
allows.
-/

namespace CBAIT

/-- Python exception markers raised by the embedded code paths. -/
inductive PyErr where
  | indexError
  | zeroDivisionError
  | valueError
  | fileNotFoundError
deriving DecidableEq

/-- A numpy float64 result: a finite real, an infinity, or NaN.  Used where
numpy scalar arithmetic (which never raises) produces special values. -/
inductive NpFloat where
  | real (x : ℝ)
  | inf
  | negInf
  | nan

/-- pandas `Series.sum()` with the default `skipna=True`: NaN entries
(`none`) are skipped, the empty sum is `0.0`. -/
def nansum : List (Option ℝ) → ℝ
  | [] => 0
  | none :: rest => nansum rest
  | some x :: rest => x + nansum rest

/-- The non-NaN entries of a pandas series, in order. -/
def nonNanValues (l : List (Option ℝ)) : List ℝ := l.filterMap id

/-- pandas `Series.count()`: the number of non-NaN entries. -/
def scount (l : List (Option ℝ)) : ℕ := (nonNanValues l).length

/-- `BaseStrategyTester.get_multiple`: `np.exp(data.sum())`
(src/backtests/base_strategy_tester.py, line 106). -/
noncomputable def get_multiple (data : List (Option ℝ)) : ℝ :=
  Real.exp (nansum data)

/-- pandas `Series.mean()` (skipna): NaN for an empty count, else the sum of
the non-NaN entries divided by their number. -/
noncomputable def nanmean (l : List (Option ℝ)) : Option ℝ :=
  if scount l = 0 then none else some (nansum l / scount l)

/-- pandas `Series.std()` (skipna, default `ddof=1`, Bessel-corrected sample
standard deviation): NaN when fewer than two non-NaN entries. -/
noncomputable def nanstd (l : List (Option ℝ)) : Option ℝ :=
  if scount l < 2 then none
  else
    some (Real.sqrt
      ((((nonNanValues l).map (fun v => (v - nansum l / scount l) ^ 2)).sum) /
        ((scount l : ℝ) - 1)))

/-- A time-indexed pandas series: bar timestamps (epoch seconds, as produced
by the datetime index) paired with one column of float values. -/
structure Series where
  index : List ℤ
  values : List (Option ℝ)

/-- `(data.index[-1] - data.index[0]).days`: a pandas `Timedelta.days` is the
floor of the elapsed seconds over one day. -/
def spanDays (t0 tn : ℤ) : ℤ := Int.fdiv (tn - t0) 86400

/-- `BaseStrategyTester.get_cagr`
(src/backtests/base_strategy_tester.py, lines 117-120):
`get_multiple(data) ** (1 / (span.days / trading_days_per_year)) - 1`.
`data.index[-1]` on an empty index raises `IndexError`; the Python scalar
divisions `days / tdpy` and `1 / (...)` raise `ZeroDivisionError` on a zero
divisor. -/
noncomputable def get_cagr (tradingDaysPerYear : ℝ) (data : Series) :
    Except PyErr ℝ :=
  match data.index.head?, data.index.getLast? with
  | some t0, some tn =>
      if tradingDaysPerYear = 0 then .error .zeroDivisionError
      else
        if ((spanDays t0 tn : ℝ) / tradingDaysPerYear) = 0 then
          .error .zeroDivisionError
        else
          .ok (get_multiple data.values ^
            ((1 : ℝ) / ((spanDays t0 tn : ℝ) / tradingDaysPerYear)) - 1)
  | _, _ => .error .indexError

/-- `BacktestTradeModel.get_trades_per_year`
(src/entities/backtest_trade_model.py, lines 68-70):
`data.Close.count() / (span.days / trading_days_per_year)`.
`count()` is a numpy `int64`, so the final division follows numpy scalar
semantics: dividing by `0.0` yields `inf` (or `nan` for a zero count) with a
suppressed warning, it does not raise.  The two Python-scalar steps that can
raise are the empty-index access (`IndexError`) and `days / tdpy`
(`ZeroDivisionError` when `trading_days_per_year` is zero). -/
noncomputable def get_trades_per_year (tradingDaysPerYear : ℝ) (data : Series) :
    Except PyErr NpFloat :=
  match data.index.head?, data.index.getLast? with
  | some t0, some tn =>
      if tradingDaysPerYear = 0 then .error .zeroDivisionError
      else
        if ((spanDays t0 tn : ℝ) / tradingDaysPerYear) = 0 then
          .ok (if scount data.values = 0 then .nan
               else if 0 < tradingDaysPerYear then .inf else .negInf)
        else
          .ok (.real ((scount data.values : ℝ) /
            ((spanDays t0 tn : ℝ) / tradingDaysPerYear)))
  | _, _ => .error .indexError

/-- NaN-propagating float multiplication. -/
def optMul : Option ℝ → Option ℝ → Option ℝ
  | some a, some b => some (a * b)
  | _, _ => none

/-- `np.sqrt` on a float64 scalar: NaN for a negative argument. -/
noncomputable def npSqrt (x : ℝ) : Option ℝ :=
  if x < 0 then none else some (Real.sqrt x)

/-- `BaseStrategyTester.get_annualized_mean`
(src/backtests/base_strategy_tester.py, line 131):
`data.mean() * trades_per_year`. -/
noncomputable def get_annualized_mean (tradesPerYear : ℝ)
    (data : List (Option ℝ)) : Option ℝ :=
  optMul (nanmean data) (some tradesPerYear)

/-- `BaseStrategyTester.get_annualized_std`
(src/backtests/base_strategy_tester.py, line 142):
`data.std() * np.sqrt(trades_per_year)`. -/
noncomputable def get_annualized_std (tradesPerYear : ℝ)
    (data : List (Option ℝ)) : Option ℝ :=
  optMul (nanstd data) (npSqrt tradesPerYear)

/-- numpy float64 scalar division: NaN operands propagate, division by zero
yields a signed infinity (or NaN for `0/0`), it never raises. -/
noncomputable def npDiv : Option ℝ → Option ℝ → NpFloat
  | some x, some y =>
      if y = 0 then (if x = 0 then .nan else if 0 < x then .inf else .negInf)
      else .real (x / y)
  | _, _ => .nan

/-- `BaseStrategyTester.get_sharpe`
(src/backtests/base_strategy_tester.py, line 153):
`np.nan if data.std() == 0 else annualized_mean / annualized_std`.
A NaN standard deviation compares unequal to `0`, so the `else` branch is
taken in that case. -/
noncomputable def get_sharpe (tradesPerYear : ℝ) (data : List (Option ℝ)) :
    NpFloat :=
  if nanstd data = some 0 then .nan
  else npDiv (get_annualized_mean tradesPerYear data)
    (get_annualized_std tradesPerYear data)

/-- Zero-pad a natural number to two digits, as `strftime` does. -/
def pad2 (n : ℕ) : String := if n < 10 then "0" ++ toString n else toString n

/-- Zero-pad a natural number to four digits, as `strftime`'s `%Y` does. -/
def pad4 (n : ℕ) : String :=
  if n < 10 then "000" ++ toString n
  else if n < 100 then "00" ++ toString n
  else if n < 1000 then "0" ++ toString n
  else toString n

/-- A civil UTC datetime, as held by a Python `datetime` object. -/
structure DateTime where
  year : ℕ
  month : ℕ
  day : ℕ
  hour : ℕ
  minute : ℕ
  second : ℕ
deriving DecidableEq

/-- `strftime("%Y-%m-%dT%H:%M:%SZ")`: the ISO-8601 UTC format used for the
effective start (src/utils/earliest_valid_timestamp_loader.py, line 20, and
src/entities/base_trade_model.py, line 56). -/
def fmtDateTimeIso (dt : DateTime) : String :=
  pad4 dt.year ++ "-" ++ pad2 dt.month ++ "-" ++ pad2 dt.day ++ "T" ++
    pad2 dt.hour ++ ":" ++ pad2 dt.minute ++ ":" ++ pad2 dt.second ++ "Z"

/-- Days since the Unix epoch to a Gregorian civil date (year, month, day);
the standard era-based conversion used by civil-time libraries. -/
def civilFromDays (z0 : ℤ) : ℤ × ℕ × ℕ :=
  let z := z0 + 719468
  let era : ℤ := Int.fdiv z 146097
  let doe : ℕ := (z - era * 146097).toNat
  let yoe : ℕ := (doe - doe / 1460 + doe / 36524 - doe / 146096) / 365
  let doy : ℕ := doe - (365 * yoe + yoe / 4 - yoe / 100)
  let mp : ℕ := (5 * doy + 2) / 153
  let d : ℕ := doy - (153 * mp + 2) / 5 + 1
  let m : ℕ := if mp < 10 then mp + 3 else mp - 9
  ((yoe : ℤ) + era * 400 + (if m ≤ 2 then 1 else 0), m, d)

/-- `datetime.fromtimestamp(secs, tz=UTC)` restricted to whole seconds. -/
def epochSecondsToDateTime (secs : ℤ) : DateTime :=
  let days := Int.fdiv secs 86400
  let sod : ℕ := (secs - days * 86400).toNat
  let ymd := civilFromDays days
  ⟨ymd.1.toNat, ymd.2.1, ymd.2.2, sod / 3600, sod % 3600 / 60, sod % 60⟩

/-- `datetime.fromtimestamp(secs, tz=UTC).strftime("%Y-%m-%dT%H:%M:%SZ")`. -/
def fmtEpochSecondsIso (secs : ℤ) : String :=
  fmtDateTimeIso (epochSecondsToDateTime secs)

/-- A Gregorian leap year. -/
def isLeapYear (y : ℕ) : Bool :=
  y % 4 == 0 && (y % 100 != 0 || y % 400 == 0)

/-- Days in a civil month, leap years included. -/
def daysInMonth (y m : ℕ) : ℕ :=
  if m = 2 then (if isLeapYear y then 29 else 28)
  else if m = 4 ∨ m = 6 ∨ m = 9 ∨ m = 11 then 30
  else 31

/-- Read one decimal digit from a character stream. -/
def readDigit : List Char → Option (ℕ × List Char)
  | c :: rest => if c.isDigit then some (c.toNat - 48, rest) else none
  | [] => none

/-- Read one or two decimal digits (the lenient width of `strptime`'s
numeric fields such as `%m`, `%d`, `%H`, `%M`, `%S`). -/
def read2 (cs : List Char) : Option (ℕ × List Char) := do
  let (d1, cs1) ← readDigit cs
  match readDigit cs1 with
  | some (d2, cs2) => some (10 * d1 + d2, cs2)
  | none => some (d1, cs1)

/-- Read exactly four decimal digits (`strptime`'s `%Y`). -/
def read4 (cs : List Char) : Option (ℕ × List Char) := do
  let (d1, cs1) ← readDigit cs
  let (d2, cs2) ← readDigit cs1
  let (d3, cs3) ← readDigit cs2
  let (d4, cs4) ← readDigit cs3
  some (1000 * d1 + 100 * d2 + 10 * d3 + d4, cs4)

/-- Expect one literal character. -/
def expectChar (c : Char) : List Char → Option (List Char)
  | x :: rest => if x = c then some rest else none
  | [] => none

/-- `datetime.strptime(s, "%Y-%m-%d %H:%M:%S")`: parse and range-validate a
civil datetime; `none` models the `ValueError` raised on malformed input. -/
def strptimeYmdHms (s : String) : Option DateTime := do
  let cs := s.data
  let (y, cs) ← read4 cs
  let cs ← expectChar '-' cs
  let (mo, cs) ← read2 cs
  let cs ← expectChar '-' cs
  let (d, cs) ← read2 cs
  let cs ← expectChar ' ' cs
  let (h, cs) ← read2 cs
  let cs ← expectChar ':' cs
  let (mi, cs) ← read2 cs
  let cs ← expectChar ':' cs
  let (sec, cs) ← read2 cs
  if cs = [] ∧ 1 ≤ mo ∧ mo ≤ 12 ∧ 1 ≤ d ∧ d ≤ daysInMonth y mo ∧
      h ≤ 23 ∧ mi ≤ 59 ∧ sec ≤ 59 then
    some ⟨y, mo, d, h, mi, sec⟩
  else none

/-- `binance.enums.HistoricalKlinesType`. -/
inductive HistoricalKlinesType where
  | SPOT
  | FUTURES
  | FUTURES_COIN
deriving DecidableEq

/-- The `.name` of a `HistoricalKlinesType` member, used in the cache
directory path (src/utils/historical_data_loader.py, line 193). -/
def HistoricalKlinesType.name : HistoricalKlinesType → String
  | .SPOT => "SPOT"
  | .FUTURES => "FUTURES"
  | .FUTURES_COIN => "FUTURES_COIN"

/-- One raw 12-field kline record as returned by the exchange client
(open-time ms, then string-typed price/volume fields). -/
structure Kline where
  openTime : ℤ
  Open : String
  High : String
  Low : String
  Close : String
  Volume : String
  closeTime : ℤ
  quoteAssetVolume : String
  numberOfTrades : String
  takerBuyBase : String
  takerBuyQuote : String
  ignoreField : String

/-- The external Binance client collaborator, reduced to the two operations
the repository consumes. -/
structure ClientModel where
  getHistoricalKlines :
    String → String → Option String → Option String → ℤ →
      HistoricalKlinesType → List Kline
  getEarliestValidTimestampMs : String → String → HistoricalKlinesType → ℤ

/-- Fold a digit list into a natural number. -/
def digitsToNat (cs : List Char) : ℕ :=
  cs.foldl (fun acc c => 10 * acc + (c.toNat - 48)) 0

/-- `pd.to_numeric(x, errors="coerce")` on a wire string: an optionally
signed plain decimal literal parses to its exact rational value, anything
else coerces to NaN (`none`). -/
def toNumericCoerce (s : String) : Option ℚ :=
  let signed : Bool × List Char :=
    match s.data with
    | '-' :: r => (true, r)
    | '+' :: r => (false, r)
    | r => (false, r)
  let cs := signed.2
  let intPart := cs.takeWhile Char.isDigit
  let rest := cs.dropWhile Char.isDigit
  let mag : Option ℚ :=
    match rest with
    | [] => if intPart = [] then none else some (digitsToNat intPart : ℚ)
    | '.' :: fr =>
        let fracPart := fr.takeWhile Char.isDigit
        if fr.dropWhile Char.isDigit ≠ [] then none
        else if intPart = [] ∧ fracPart = [] then none
        else some ((digitsToNat intPart : ℚ) +
          (digitsToNat fracPart : ℚ) / ((10 : ℚ) ^ fracPart.length))
    | _ => none
  mag.map (fun q => if signed.1 then -q else q)

/-- `HistoricalDataLoaderConfig` (src/utils/historical_data_loader.py,
lines 16-24).  `end` is a Lean keyword, hence `endStr`. -/
structure HistoricalDataLoaderConfig where
  symbol : String := "BTCUSDT"
  interval : String := "1h"
  start : Option String := none
  endStr : Option String := none
  limit : ℤ := 1000
  klinesType : HistoricalKlinesType := .SPOT

/-- The canonical OHLCV frame: open-time index (epoch ms) plus the five
coerced numeric columns. -/
structure OhlcvFrame where
  index : List ℤ
  Open : List (Option ℚ)
  High : List (Option ℚ)
  Low : List (Option ℚ)
  Close : List (Option ℚ)
  Volume : List (Option ℚ)
deriving DecidableEq

/-- `HistoricalDataLoader._load_historical_data`
(src/utils/historical_data_loader.py, lines 93-142): fetch klines, keep the
six canonical columns, set the open time as the index and coerce the numeric
columns with `errors="coerce"`. -/
def loadHistoricalData (client : ClientModel)
    (cfg : HistoricalDataLoaderConfig) : OhlcvFrame :=
  let rows := client.getHistoricalKlines cfg.symbol cfg.interval cfg.start
    cfg.endStr cfg.limit cfg.klinesType
  { index := rows.map (fun r => r.openTime)
    Open := rows.map (fun r => toNumericCoerce r.Open)
    High := rows.map (fun r => toNumericCoerce r.High)
    Low := rows.map (fun r => toNumericCoerce r.Low)
    Close := rows.map (fun r => toNumericCoerce r.Close)
    Volume := rows.map (fun r => toNumericCoerce r.Volume) }

/-- `HistoricalDataLoader.get_historical_data_from_api`
(src/utils/historical_data_loader.py, lines 79-91). -/
def getHistoricalDataFromApi (client : ClientModel)
    (cfg : HistoricalDataLoaderConfig) : OhlcvFrame :=
  loadHistoricalData client cfg

/-- The `end-or-"latest"` filename component
(src/utils/historical_data_loader.py, line 176). -/
def endOr (e : Option String) : String := e.getD "latest"

/-- The effective-start string used in the cache filename
(src/utils/historical_data_loader.py, lines 156-174): the formatted
exchange earliest-valid timestamp when `start` is absent, else the
reparsed-and-reformatted explicit start (`strptime` may raise). -/
def effectiveStartStr (client : ClientModel)
    (cfg : HistoricalDataLoaderConfig) : Except PyErr String :=
  match cfg.start with
  | none => .ok (fmtEpochSecondsIso
      (Int.fdiv (client.getEarliestValidTimestampMs cfg.symbol cfg.interval
        cfg.klinesType) 1000))
  | some s =>
      match strptimeYmdHms s with
      | none => .error .valueError
      | some dt => .ok (fmtDateTimeIso dt)

/-- `HistoricalDataLoader._get_data_dir_path`
(src/utils/historical_data_loader.py, lines 180-196):
`data/{klines_type.name}/{symbol}/{interval}`. -/
def dataDirPath (klinesType : HistoricalKlinesType)
    (symbol interval : String) : String :=
  "data/" ++ klinesType.name ++ "/" ++ symbol ++ "/" ++ interval

/-- `HistoricalDataLoader._get_csv_filename` string construction
(src/utils/historical_data_loader.py, line 178):
`{effective_start}_{end-or-"latest"}.csv`. -/
def csvFilename (effectiveStart : String) (endOpt : Option String) : String :=
  effectiveStart ++ "_" ++ endOr endOpt ++ ".csv"

/-- The full cache path `{data_dir_path}/{filename}` written and read by the
loader (src/utils/historical_data_loader.py, lines 55 and 74), as a function
of the five key fields. -/
def cachePath (klinesType : HistoricalKlinesType)
    (symbol interval effectiveStart : String) (endOpt : Option String) :
    String :=
  dataDirPath klinesType symbol interval ++ "/" ++
    csvFilename effectiveStart endOpt

/-- Association-list lookup (first match wins). -/
def alookup {α β : Type} [DecidableEq α] : α → List (α × β) → Option β
  | _, [] => none
  | k, (k', v) :: rest => if k = k' then some v else alookup k rest

/-- The on-disk CSV cache, as a path-keyed store of frames.  The CSV byte
encoding itself is out of the spec's scope; a written frame is read back
with the same index and values (exact decimals model the allowed floating
round-trip tolerance).  The newest write for a path shadows older ones. -/
def Store : Type := List (String × OhlcvFrame)

/-- `HistoricalDataLoader.export_historical_data_to_csv`
(src/utils/historical_data_loader.py, lines 40-57): derive the cache path,
fetch the series from the API and write it to the store. -/
def exportHistoricalDataToCsv (client : ClientModel)
    (cfg : HistoricalDataLoaderConfig) (store : Store) : Except PyErr Store :=
  match effectiveStartStr client cfg with
  | .error e => .error e
  | .ok eff =>
      .ok ((cachePath cfg.klinesType cfg.symbol cfg.interval eff cfg.endStr,
        loadHistoricalData client cfg) :: store)

/-- `HistoricalDataLoader.get_historical_data_from_csv`
(src/utils/historical_data_loader.py, lines 59-77): derive the same cache
path and read the stored frame; a missing file is `FileNotFoundError`. -/
def getHistoricalDataFromCsv (client : ClientModel)
    (cfg : HistoricalDataLoaderConfig) (store : Store) :
    Except PyErr OhlcvFrame :=
  match effectiveStartStr client cfg with
  | .error e => .error e
  | .ok eff =>
      match alookup (cachePath cfg.klinesType cfg.symbol cfg.interval eff
        cfg.endStr) store with
      | some f => .ok f
      | none => .error .fileNotFoundError

/-- The state of one `functools.lru_cache` wrapper plus a call counter on
the wrapped function: the cache is an assoc list in recency order (most
recent first). -/
structure LruState (κ ν : Type) where
  cache : List (κ × ν)
  calls : ℕ

/-- One call through a `functools.lru_cache(maxsize)` wrapper: a hit returns
the cached value and moves the key to most-recent; a miss calls the wrapped
function, inserts the result as most-recent and evicts the least recently
used entry when the cache would exceed `maxsize`. -/
def lruCall {κ ν : Type} [DecidableEq κ] (f : κ → ν) (maxsize : ℕ) (k : κ)
    (s : LruState κ ν) : ν × LruState κ ν :=
  match alookup k s.cache with
  | some v =>
      (v, ⟨(k, v) :: s.cache.filter (fun p => decide (p.1 ≠ k)), s.calls⟩)
  | none =>
      (f k, ⟨((k, f k) :: s.cache).take maxsize, s.calls + 1⟩)

/-- The memo key of `get_earliest_valid_timestamp`: (symbol, interval,
klines_type), for a fixed client object. -/
def ResolverKey : Type := String × String × HistoricalKlinesType

instance : DecidableEq ResolverKey := by
  unfold ResolverKey
  infer_instance

/-- The body of `get_earliest_valid_timestamp`
(src/utils/earliest_valid_timestamp_loader.py, lines 17-20): query the
exchange for the earliest valid epoch-millisecond timestamp and format it as
an ISO-8601 UTC string truncated to seconds. -/
def earliestValidTimestampBody (client : ClientModel) : ResolverKey → String
  | (symbol, interval, kt) =>
      fmtEpochSecondsIso
        (Int.fdiv (client.getEarliestValidTimestampMs symbol interval kt) 1000)

/-- `get_earliest_valid_timestamp`
(src/utils/earliest_valid_timestamp_loader.py, lines 10-20): the body above
behind a bare `@lru_cache` decorator, whose default capacity is 128. -/
def get_earliest_valid_timestamp (client : ClientModel) (k : ResolverKey)
    (s : LruState ResolverKey String) : String × LruState ResolverKey String :=
  lruCall (earliestValidTimestampBody client) 128 k s

/-- Run a sequence of resolver calls, threading the memo state. -/
def runResolverCalls (client : ClientModel) (ks : List ResolverKey)
    (s : LruState ResolverKey String) : LruState ResolverKey String :=
  ks.foldl (fun st k => (get_earliest_valid_timestamp client k st).2) s

/-- `BaseTradeModel` (src/entities/base_trade_model.py, lines 11-40): a
pydantic model whose fields carry no custom validators, so construction only
checks types (enforced statically here) and never field values. -/
structure BaseTradeModel where
  symbol : String := "BTCUSDT"
  interval : String := "1h"
  start : Option String := none
  endStr : Option String := none
  limit : ℤ := 1000
  klinesType : HistoricalKlinesType := .SPOT

/-- `BacktestTradeModel` (src/entities/backtest_trade_model.py, lines 8-37):
extends the base model with the backtest cost and annualization fields, again
with no custom validators. -/
structure BacktestTradeModel extends BaseTradeModel where
  historicalData : OhlcvFrame
  tradeCommission : ℝ := 0.001
  approximatedSpreadAndSlippage : ℝ := 0.0001
  tradingDaysPerYear : ℝ := 365.25

/-- Constructing a `BacktestTradeModel`: with no pydantic validators beyond
typing, every well-typed field assignment is accepted. -/
noncomputable def mkBacktestTradeModel (symbol interval : String)
    (start endStr : Option String) (limit : ℤ)
    (klinesType : HistoricalKlinesType) (historicalData : OhlcvFrame)
    (tradeCommission approximatedSpreadAndSlippage tradingDaysPerYear : ℝ) :
    Except PyErr BacktestTradeModel :=
  .ok ⟨⟨symbol, interval, start, endStr, limit, klinesType⟩, historicalData,
    tradeCommission, approximatedSpreadAndSlippage, tradingDaysPerYear⟩

/-- `BaseTradeModel.get_start_datetime`
(src/entities/base_trade_model.py, lines 42-57), paired with the number of
exchange-client calls the evaluated branch performs: the `start is None`
branch resolves the earliest valid timestamp through the exchange client
(one call when the memo misses), the explicit-start branch only reparses and
reformats the string — `strptime` raises `ValueError` on malformed input
before any I/O. -/
def get_start_datetime (client : ClientModel) (m : BaseTradeModel) :
    Except PyErr String × ℕ :=
  match m.start with
  | none =>
      (.ok (earliestValidTimestampBody client (m.symbol, m.interval,
        m.klinesType)), 1)
  | some s =>
      match strptimeYmdHms s with
      | none => (.error .valueError, 0)
      | some dt => (.ok (fmtDateTimeIso dt), 0)

/-! ## Concrete fixtures used by witnesses and counterexamples -/

/-- A sample wire kline row. -/
def exKline : Kline :=
  ⟨1609459200000, "29000.1", "29100.5", "28900.0", "29050.25", "123.5",
    1609462799999, "0", "100", "0", "0", "0"⟩

/-- A concrete exchange-client test double with a fixed kline response and a
fixed earliest valid timestamp. -/
def exClient : ClientModel :=
  { getHistoricalKlines := fun _ _ _ _ _ _ => [exKline]
    getEarliestValidTimestampMs := fun _ _ _ => 1502942428000 }

/-- A concrete loader configuration with an explicit start date. -/
def exCfg : HistoricalDataLoaderConfig :=
  { start := some "2021-01-01 00:00:00" }

/-- 128 resolver keys that are pairwise distinct and distinct from the
`"BTCUSDT"` key, enough to fill the default `lru_cache` capacity. -/
def evictionKeys : List ResolverKey :=
  (List.range 128).map (fun i => (toString i, "1h", HistoricalKlinesType.SPOT))

/-! ## Shared helper lemmas -/

lemma nansum_eq_sum_filterMap (l : List (Option ℝ)) :
    nansum l = (l.filterMap id).sum := by
  induction l with
  | nil => rfl
  | cons x xs ih => cases x <;> simp [nansum, ih]

lemma nansum_map_some (r : List ℝ) : nansum (r.map some) = r.sum := by
  induction r with
  | nil => rfl
  | cons x xs ih => simp [nansum, ih]

lemma nonNanValues_of_const (data : List (Option ℝ)) (x : ℝ)
    (h : ∀ v ∈ data, v = some x) :
    nonNanValues data = List.replicate data.length x := by
  induction data with
  | nil => rfl
  | cons v vs ih =>
      have hv : v = some x := h v (List.mem_cons_self v vs)
      have hvs : ∀ w ∈ vs, w = some x := fun w hw => h w (List.mem_cons_of_mem v hw)
      have hih := ih hvs
      rw [nonNanValues] at hih ⊢
      subst hv
      simp [List.filterMap_cons, hih, List.replicate_succ]

/-! ## C1: multiple equals exp of the summed returns -/

/-- C1: for every (NaN-free) return series `r`, `get_multiple r` equals
`exp` of the sum of the elements of `r`; in particular an all-zero series
yields exactly `1.0`. -/
theorem get_multiple_exp_sum (r : List ℝ) :
    get_multiple (r.map some) = Real.exp r.sum ∧
      ((∀ x ∈ r, x = 0) → get_multiple (r.map some) = 1) := by
  refine ⟨by rw [get_multiple, nansum_map_some], fun hz => ?_⟩
  rw [get_multiple, nansum_map_some, List.sum_eq_zero hz, Real.exp_zero]

/-- Witness for C1 at the all-zero series `[0.0, 0.0, 0.0]`. -/
theorem get_multiple_exp_sum_witness :
    get_multiple ([(0 : ℝ), 0, 0].map some) = Real.exp ([(0 : ℝ), 0, 0]).sum ∧
      get_multiple ([(0 : ℝ), 0, 0].map some) = 1 :=
  ⟨(get_multiple_exp_sum [0, 0, 0]).1,
    (get_multiple_exp_sum [0, 0, 0]).2 (by simp)⟩

/-! ## C10: multiple ignores NaN entries -/

/-- C10: `get_multiple` sums only the non-NaN entries (pandas
`sum(skipna=True)`); hence the NaN log-return on the first bar of a prepared
series does not make the multiple NaN, and the multiple of an empty series
is exactly `1.0`. -/
theorem get_multiple_skips_nan (r : List (Option ℝ)) :
    get_multiple r = Real.exp ((r.filterMap id).sum) ∧
      get_multiple (none :: r) = get_multiple r ∧
      get_multiple ([] : List (Option ℝ)) = 1 := by
  refine ⟨by rw [get_multiple, nansum_eq_sum_filterMap], ?_, ?_⟩
  · rw [get_multiple, get_multiple]
    rfl
  · rw [get_multiple]
    simp [nansum, Real.exp_zero]

/-! ## C2: the CAGR formula over a positive whole-day span -/

/-- C2: for a series whose index spans a positive whole number `d` of
calendar days, `get_cagr` at the default `trading_days_per_year = 365.25`
returns `get_multiple(r) ^ (365.25 / d) - 1`, with `d` the elapsed days
between the first and last timestamp (2 days for 3 daily bars). -/
theorem get_cagr_formula (data : Series) (t0 tn d : ℤ)
    (h0 : data.index.head? = some t0) (hn : data.index.getLast? = some tn)
    (hspan : tn - t0 = 86400 * d) (hd : 0 < d) :
    get_cagr (365.25 : ℝ) data =
      .ok (get_multiple data.values ^ ((365.25 : ℝ) / (d : ℝ)) - 1) := by
  have hsd : spanDays t0 tn = d := by
    rw [spanDays, hspan, Int.mul_fdiv_cancel_left _ (by norm_num)]
  have hdR : (d : ℝ) ≠ 0 := by
    exact_mod_cast hd.ne'
  have hq : ((d : ℝ) / (365.25 : ℝ)) ≠ 0 := by
    exact div_ne_zero hdR (by norm_num)
  simp only [get_cagr, h0, hn, hsd]
  rw [if_neg (by norm_num : ¬((365.25 : ℝ) = 0)), if_neg hq]
  rw [one_div_div]

/-- Witness for C2: three daily bars spanning two calendar days. -/
theorem get_cagr_formula_witness :
    get_cagr (365.25 : ℝ)
        ⟨[0, 86400, 172800], [some 0.01, some (-0.02), some 0.03]⟩ =
      .ok (get_multiple [some 0.01, some (-0.02), some 0.03] ^
        ((365.25 : ℝ) / ((2 : ℤ) : ℝ)) - 1) :=
  get_cagr_formula _ 0 172800 2 rfl rfl (by decide) (by decide)

/-! ## C3: CAGR on a zero-day span raises -/

/-- C3: whenever the calendar-day span between the first and last timestamp
is zero (in particular for a single-timestamp series), `get_cagr` raises
`ZeroDivisionError` — it never returns infinity or any numeric value. -/
theorem get_cagr_zero_span_error (tdpy : ℝ) (data : Series) (t0 tn : ℤ)
    (h0 : data.index.head? = some t0) (hn : data.index.getLast? = some tn)
    (hspan : spanDays t0 tn = 0) :
    get_cagr tdpy data = .error .zeroDivisionError := by
  simp only [get_cagr, h0, hn, hspan]
  by_cases h : tdpy = 0
  · rw [if_pos h]
  · rw [if_neg h, if_pos (by simp)]

/-- Witness for C3 at a single-timestamp series. -/
theorem get_cagr_zero_span_error_witness :
    get_cagr (365.25 : ℝ) ⟨[1609459200], [some 0.01]⟩ =
      .error .zeroDivisionError :=
  get_cagr_zero_span_error (365.25 : ℝ) _ 1609459200 1609459200 rfl rfl
    (by decide)

/-! ## C4: trades-per-year on fewer than two bars (code bug) -/

/-- C4 (code bug): on an empty prepared series `get_trades_per_year` does
raise (`IndexError` from `data.index[-1]`), but on a single-bar series the
day span is zero and the numpy `int64` count is divided by `0.0`, which does
not raise — the function silently returns `inf`, contradicting the claimed
loud failure for every series with fewer than two bars. -/
theorem get_trades_per_year_single_bar_inf :
    get_trades_per_year (365.25 : ℝ) ⟨[], []⟩ = .error .indexError ∧
      get_trades_per_year (365.25 : ℝ) ⟨[1609459200], [some 100]⟩ =
        .ok .inf := by
  constructor
  · rfl
  · have hspan : spanDays 1609459200 1609459200 = 0 := by decide
    have hc : scount [some (100 : ℝ)] = 1 := rfl
    simp only [get_trades_per_year, List.head?_cons, List.getLast?_singleton,
      hspan, hc]
    rw [if_neg (by norm_num : ¬((365.25 : ℝ) = 0)), if_pos (by simp)]
    rw [if_neg (by norm_num), if_pos (by norm_num)]

/-! ## C5: Sharpe ratio degeneracy -/

/-- C5: for every series of length at least one, `get_sharpe` returns the
NaN marker whenever the (sample) standard deviation is zero; otherwise it
returns `get_annualized_mean / get_annualized_std` under numpy division.
In particular every constant-return series (any length ≥ 1) yields NaN. -/
theorem get_sharpe_spec (tpy : ℝ) (data : List (Option ℝ))
    (hlen : 1 ≤ data.length) :
    (nanstd data = some 0 → get_sharpe tpy data = .nan) ∧
      (nanstd data ≠ some 0 →
        get_sharpe tpy data =
          npDiv (get_annualized_mean tpy data) (get_annualized_std tpy data)) ∧
      (∀ x : ℝ, (∀ v ∈ data, v = some x) → get_sharpe tpy data = .nan) := by
  refine ⟨fun h => by rw [get_sharpe, if_pos h],
    fun h => by rw [get_sharpe, if_neg h], fun x hx => ?_⟩
  have hvals := nonNanValues_of_const data x hx
  have hcount : scount data = data.length := by
    rw [scount, hvals, List.length_replicate]
  rcases Nat.lt_or_ge data.length 2 with h2 | h2
  · -- length 1: the standard deviation is NaN, the else branch divides by NaN
    have hstd : nanstd data = none := by
      rw [nanstd, if_pos (by rw [hcount]; exact h2)]
    have hstd' : get_annualized_std tpy data = none := by
      rw [get_annualized_std, hstd]
      rfl
    rw [get_sharpe, if_neg (by rw [hstd]; simp)]
    rw [hstd']
    cases hm : get_annualized_mean tpy data <;> rfl
  · -- length ≥ 2: the sample standard deviation of a constant series is 0
    have hlen0 : (data.length : ℝ) ≠ 0 := by
      have : 0 < data.length := lt_of_lt_of_le Nat.one_pos hlen
      exact_mod_cast this.ne'
    have hmean : nansum data / (scount data : ℝ) = x := by
      rw [nansum_eq_sum_filterMap]
      show ((nonNanValues data).sum) / (scount data : ℝ) = x
      rw [hvals, hcount, List.sum_replicate, nsmul_eq_mul]
      field_simp
    have hstd : nanstd data = some 0 := by
      rw [nanstd, if_neg (by rw [hcount]; omega)]
      congr 1
      have : ((nonNanValues data).map
          (fun v => (v - nansum data / (scount data : ℝ)) ^ 2)) =
          List.replicate data.length 0 := by
        rw [hvals, List.map_replicate, hmean]
        simp
      rw [this]
      simp [List.sum_replicate]
    rw [get_sharpe, if_pos hstd]

/-- Witness for C5 at the constant series `[5.0, 5.0]`. -/
theorem get_sharpe_spec_witness :
    get_sharpe (7 : ℝ) [some 5, some 5] = .nan :=
  (get_sharpe_spec 7 [some 5, some 5] (by decide)).2.2 5 (by
    intro v hv
    rcases List.mem_cons.mp hv with h1 | h1
    · exact h1
    · simpa using h1)

/-! ## C8: cache round trip -/

/-- C8: exporting a model's historical data to the cache and then loading
from the cache yields exactly the frame (same index, same values) that the
API load produced at export time. -/
theorem cache_round_trip (client : ClientModel)
    (cfg : HistoricalDataLoaderConfig) (store store' : Store)
    (h : exportHistoricalDataToCsv client cfg store = .ok store') :
    getHistoricalDataFromCsv client cfg store' =
      .ok (getHistoricalDataFromApi client cfg) := by
  cases heff : effectiveStartStr client cfg with
  | error e =>
      rw [exportHistoricalDataToCsv, heff] at h
      cases h
  | ok eff =>
      rw [exportHistoricalDataToCsv, heff] at h
      simp only [Except.ok.injEq] at h
      subst h
      rw [getHistoricalDataFromCsv, heff]
      simp only [alookup, if_pos rfl]
      rfl

/-- Witness for C8 at a concrete client, config and empty starting store. -/
theorem cache_round_trip_witness :
    getHistoricalDataFromCsv exClient exCfg
        [(cachePath .SPOT "BTCUSDT" "1h" "2021-01-01T00:00:00Z" none,
          loadHistoricalData exClient exCfg)] =
      .ok (getHistoricalDataFromApi exClient exCfg) :=
  cache_round_trip exClient exCfg [] _ rfl

/-! ## C6: cache-path determinism and the failure of strict injectivity -/

lemma str_data_append (s t : String) : (s ++ t).data = s.data ++ t.data := rfl

lemma str_eq_of_data {s t : String} (h : s.data = t.data) : s = t := by
  cases s
  cases t
  exact congrArg String.mk h

/-- Splitting a list at a separator that occurs in neither prefix is
unambiguous. -/
lemma sep_split {α : Type} (sep : α) (a b c d : List α) (ha : sep ∉ a)
    (hc : sep ∉ c) (h : a ++ sep :: b = c ++ sep :: d) : a = c ∧ b = d := by
  induction a generalizing c with
  | nil =>
      cases c with
      | nil => simpa using h
      | cons y c' =>
          simp only [List.nil_append, List.cons_append, List.cons.injEq] at h
          exact absurd
            (show sep ∈ y :: c' by rw [h.1]; exact List.mem_cons_self y c') hc
  | cons x a' ih =>
      cases c with
      | nil =>
          simp only [List.cons_append, List.nil_append, List.cons.injEq] at h
          exact absurd
            (show sep ∈ x :: a' by rw [h.1]; exact List.mem_cons_self sep a')
            ha
      | cons y c' =>
          simp only [List.cons_append, List.cons.injEq] at h
          obtain ⟨rfl, h2⟩ := h
          have ha' : sep ∉ a' := fun hm => ha (List.mem_cons_of_mem _ hm)
          have hc' : sep ∉ c' := fun hm => hc (List.mem_cons_of_mem _ hm)
          obtain ⟨he1, he2⟩ := ih c' ha' hc' h2
          exact ⟨by rw [he1], he2⟩

lemma klinesTypeName_slash_free (kt : HistoricalKlinesType) :
    '/' ∉ kt.name.data := by
  cases kt <;> decide

lemma klinesTypeName_inj {k1 k2 : HistoricalKlinesType}
    (h : k1.name = k2.name) : k1 = k2 := by
  cases k1 <;> cases k2 <;> first
    | rfl
    | exact absurd h (by decide)

/-- The character-list normal form of a cache path. -/
lemma cachePath_data (kt : HistoricalKlinesType)
    (symbol interval effectiveStart : String) (endOpt : Option String) :
    (cachePath kt symbol interval effectiveStart endOpt).data =
      'd' :: 'a' :: 't' :: 'a' :: '/' ::
        (kt.name.data ++ '/' :: (symbol.data ++ '/' :: (interval.data ++
          '/' :: (effectiveStart.data ++ '_' :: ((endOr endOpt).data ++
            ('.' :: 'c' :: 's' :: 'v' :: [])))))) := by
  rw [cachePath, dataDirPath, csvFilename]
  simp only [str_data_append, List.append_assoc]
  rfl

/-- C6 counterexample: two configurations that differ in the `end` field
(`None` versus the literal string `"latest"`) map to the same cache path,
so the path is not injective in the five key fields as claimed. -/
theorem cachePath_not_injective :
    cachePath .SPOT "BTCUSDT" "1h" "2020-01-01T00:00:00Z" none =
        cachePath .SPOT "BTCUSDT" "1h" "2020-01-01T00:00:00Z"
          (some "latest") ∧
      (none : Option String) ≠ some "latest" := by
  constructor
  · rfl
  · intro h
    cases h

/-- C6 (amended): the cache path is a pure function of exactly
(market type, symbol, interval, effective start, end): equal five-tuples
give equal paths, and the path determines the five fields — hence any
difference yields a different path — provided the symbol and interval
contain no `/`, the effective start (a fixed-format timestamp) contains no
`_`, and `end = None` is identified with `end = "latest"` (both produce the
`latest` filename component). -/
theorem cachePath_exact_match (k1 k2 : HistoricalKlinesType)
    (sym1 sym2 intv1 intv2 eff1 eff2 : String) (e1 e2 : Option String)
    (hs1 : '/' ∉ sym1.data) (hs2 : '/' ∉ sym2.data)
    (hi1 : '/' ∉ intv1.data) (hi2 : '/' ∉ intv2.data)
    (hu1 : '_' ∉ eff1.data) (hu2 : '_' ∉ eff2.data) :
    cachePath k1 sym1 intv1 eff1 e1 = cachePath k2 sym2 intv2 eff2 e2 ↔
      (k1 = k2 ∧ sym1 = sym2 ∧ intv1 = intv2 ∧ eff1 = eff2 ∧
        endOr e1 = endOr e2) := by
  constructor
  · intro h
    have hd := congrArg String.data h
    rw [cachePath_data, cachePath_data] at hd
    simp only [List.cons.injEq, true_and] at hd
    obtain ⟨hname, hd⟩ :=
      sep_split '/' _ _ _ _ (klinesTypeName_slash_free k1)
        (klinesTypeName_slash_free k2) hd
    obtain ⟨hsym, hd⟩ := sep_split '/' _ _ _ _ hs1 hs2 hd
    obtain ⟨hintv, hd⟩ := sep_split '/' _ _ _ _ hi1 hi2 hd
    obtain ⟨heff, hd⟩ := sep_split '_' _ _ _ _ hu1 hu2 hd
    have hend : (endOr e1).data = (endOr e2).data :=
      List.append_cancel_right hd
    exact ⟨klinesTypeName_inj (str_eq_of_data hname), str_eq_of_data hsym,
      str_eq_of_data hintv, str_eq_of_data heff, str_eq_of_data hend⟩
  · rintro ⟨rfl, rfl, rfl, rfl, hend⟩
    rw [cachePath, cachePath, csvFilename, csvFilename, hend]

/-- Witness for C6 (amended): two configurations differing only in the
symbol map to different paths. -/
theorem cachePath_exact_match_witness :
    cachePath .SPOT "BTCUSDT" "1h" "2020-01-01T00:00:00Z" none ≠
      cachePath .SPOT "ETHUSDT" "1h" "2020-01-01T00:00:00Z" none := by
  intro h
  have := (cachePath_exact_match .SPOT .SPOT "BTCUSDT" "ETHUSDT" "1h" "1h"
    "2020-01-01T00:00:00Z" "2020-01-01T00:00:00Z" none none
    (by decide) (by decide) (by decide) (by decide)
    (by decide) (by decide)).mp h
  exact absurd this.2.1 (by decide)

/-! ## C7: resolver memoization and the LRU capacity limit -/

lemma alookup_eq_none_iff {α β : Type} [DecidableEq α] (k : α)
    (l : List (α × β)) : alookup k l = none ↔ k ∉ l.map Prod.fst := by
  induction l with
  | nil => simp [alookup]
  | cons p rest ih =>
      obtain ⟨k', v⟩ := p
      by_cases hk : k = k'
      · subst hk
        simp [alookup]
      · simp [alookup, hk, ih]

lemma alookup_mem {α β : Type} [DecidableEq α] {k : α} {l : List (α × β)}
    {v : β} (h : alookup k l = some v) : (k, v) ∈ l := by
  induction l with
  | nil => cases h
  | cons p rest ih =>
      obtain ⟨k', w⟩ := p
      rw [alookup] at h
      by_cases hk : k = k'
      · rw [if_pos hk] at h
        obtain rfl := Option.some.inj h
        rw [hk]
        exact List.mem_cons_self _ _
      · rw [if_neg hk] at h
        exact List.mem_cons_of_mem _ (ih h)

/-- The invariant a memo cache maintains: its keys are distinct and drawn
from `allowed`, and every cached value is the wrapped function's value. -/
def CacheInv {κ ν : Type} (f : κ → ν) (allowed : List κ)
    (c : List (κ × ν)) : Prop :=
  (c.map Prod.fst).Nodup ∧ ∀ p ∈ c, p.1 ∈ allowed ∧ p.2 = f p.1

lemma alookup_of_inv {κ ν : Type} [DecidableEq κ] {f : κ → ν}
    {allowed : List κ} {c : List (κ × ν)} (hinv : CacheInv f allowed c)
    {k : κ} (hk : k ∈ c.map Prod.fst) : alookup k c = some (f k) := by
  induction c with
  | nil => cases hk
  | cons p rest ih =>
      obtain ⟨k', v⟩ := p
      rw [alookup]
      by_cases hkk : k = k'
      · subst hkk
        rw [if_pos rfl]
        have hvf : v = f k := (hinv.2 (k, v) (List.mem_cons_self _ _)).2
        rw [hvf]
      · rw [if_neg hkk]
        refine ih ⟨(List.nodup_cons.mp hinv.1).2, fun p hp =>
          hinv.2 p (List.mem_cons_of_mem _ hp)⟩ ?_
        rcases List.mem_cons.mp hk with h | h
        · exact absurd h hkk
        · exact h

/-- One `lru_cache(128)` step preserves the invariant and never evicts while
at most 128 distinct keys are in play; existing keys (and the called key)
remain cached. -/
lemma lruCall_step {κ ν : Type} [DecidableEq κ] (f : κ → ν)
    (allowed : List κ) (hlen : allowed.length ≤ 128)
    (k' : κ) (hk' : k' ∈ allowed) (s : LruState κ ν)
    (hinv : CacheInv f allowed s.cache) :
    CacheInv f allowed (lruCall f 128 k' s).2.cache ∧
      ∀ k, (k ∈ s.cache.map Prod.fst ∨ k = k') →
        k ∈ (lruCall f 128 k' s).2.cache.map Prod.fst := by
  cases hl : alookup k' s.cache with
  | some v =>
      have hmemv : (k', v) ∈ s.cache := alookup_mem hl
      have hv : v = f k' := (hinv.2 _ hmemv).2
      have hfilter_sub : ∀ p ∈ s.cache.filter (fun p => decide (p.1 ≠ k')),
          p ∈ s.cache := fun p hp => List.mem_of_mem_filter hp
      constructor
      · constructor
        · rw [lruCall, hl]
          simp only [List.map_cons]
          rw [List.nodup_cons]
          constructor
          · intro hmem
            obtain ⟨p, hp, hpk⟩ := List.mem_map.mp hmem
            have : p.1 ≠ k' := of_decide_eq_true (List.mem_filter.mp hp).2
            exact this hpk
          · exact List.Nodup.sublist
              (List.Sublist.map Prod.fst (List.filter_sublist _)) hinv.1
        · rw [lruCall, hl]
          intro p hp
          rcases List.mem_cons.mp hp with rfl | hp2
          · exact ⟨hk', hv⟩
          · exact hinv.2 p (hfilter_sub p hp2)
      · intro k hk
        rw [lruCall, hl]
        simp only [List.map_cons]
        by_cases hkk : k = k'
        · rw [hkk]
          exact List.mem_cons_self _ _
        · rcases hk with hk | hk
          · obtain ⟨p, hp, rfl⟩ := List.mem_map.mp hk
            refine List.mem_cons_of_mem _ (List.mem_map.mpr ⟨p, ?_, rfl⟩)
            exact List.mem_filter.mpr ⟨hp, decide_eq_true hkk⟩
          · exact absurd hk hkk
  | none =>
      have hk'notin : k' ∉ s.cache.map Prod.fst :=
        (alookup_eq_none_iff k' s.cache).mp hl
      have hsub : s.cache.map Prod.fst ⊆ allowed.erase k' := by
        intro x hx
        have hxall : x ∈ allowed := by
          obtain ⟨p, hp, rfl⟩ := List.mem_map.mp hx
          exact (hinv.2 p hp).1
        have hxne : x ≠ k' := fun h => hk'notin (h ▸ hx)
        exact (List.mem_erase_of_ne hxne).mpr hxall
      have hlencache : s.cache.length ≤ 127 := by
        have h1 : (s.cache.map Prod.fst).length ≤ (allowed.erase k').length :=
          (List.subperm_of_subset hinv.1 hsub).length_le
        rw [List.length_map] at h1
        rw [List.length_erase_of_mem hk'] at h1
        omega
      have htake : ((k', f k') :: s.cache).take 128 =
          (k', f k') :: s.cache := by
        apply List.take_of_length_le
        simp only [List.length_cons]
        omega
      constructor
      · constructor
        · rw [lruCall, hl, htake]
          simp only [List.map_cons]
          exact List.nodup_cons.mpr ⟨hk'notin, hinv.1⟩
        · rw [lruCall, hl, htake]
          intro p hp
          rcases List.mem_cons.mp hp with rfl | hp2
          · exact ⟨hk', rfl⟩
          · exact hinv.2 p hp2
      · intro k hk
        rw [lruCall, hl, htake]
        simp only [List.map_cons]
        rcases hk with hk | rfl
        · exact List.mem_cons_of_mem _ hk
        · exact List.mem_cons_self _ _

/-- Running any sequence of allowed resolver calls preserves the cache
invariant and keeps an already-cached key cached. -/
lemma runResolverCalls_keeps (client : ClientModel) (allowed : List ResolverKey)
    (hlen : allowed.length ≤ 128) (ks : List ResolverKey)
    (hks : ∀ x ∈ ks, x ∈ allowed) (s : LruState ResolverKey String)
    (hinv : CacheInv (earliestValidTimestampBody client) allowed s.cache)
    (k : ResolverKey) (hk : k ∈ s.cache.map Prod.fst) :
    CacheInv (earliestValidTimestampBody client) allowed
        (runResolverCalls client ks s).cache ∧
      k ∈ (runResolverCalls client ks s).cache.map Prod.fst := by
  induction ks generalizing s with
  | nil => exact ⟨hinv, hk⟩
  | cons k' ks' ih =>
      have hk'all : k' ∈ allowed := hks k' (List.mem_cons_self _ _)
      have hks' : ∀ x ∈ ks', x ∈ allowed := fun x hx =>
        hks x (List.mem_cons_of_mem _ hx)
      have hstep := lruCall_step (earliestValidTimestampBody client) allowed
        hlen k' hk'all s hinv
      exact ih hks' _ hstep.1 (hstep.2 k (Or.inl hk))

set_option maxRecDepth 4000 in
/-- C7 counterexample: with the default `lru_cache` capacity of 128, a call
sequence that touches 128 other keys between two calls with the identical
key evicts the first result, so the two identical-key calls issue two
exchange-client calls (130 calls in total for 129 distinct keys), not at
most one. -/
theorem resolver_eviction :
    (runResolverCalls exClient
        ((("BTCUSDT", "1h", .SPOT) : ResolverKey) :: evictionKeys)
        ⟨[], 0⟩).calls = 129 ∧
      (get_earliest_valid_timestamp exClient ("BTCUSDT", "1h", .SPOT)
        (runResolverCalls exClient
          ((("BTCUSDT", "1h", .SPOT) : ResolverKey) :: evictionKeys)
          ⟨[], 0⟩)).2.calls = 130 := by
  constructor <;> decide

/-- C7 (amended): as long as at most 128 distinct keys are resolved in the
process (the bare `@lru_cache` default capacity), the resolver is memoized
exactly as claimed: after a first call with key `k`, any later call with `k`
— whatever allowed calls happen in between — returns the computed result
without issuing another exchange-client call. -/
theorem resolver_memoization (client : ClientModel)
    (allowed : List ResolverKey) (ks : List ResolverKey) (k : ResolverKey)
    (hlen : allowed.length ≤ 128) (hk : k ∈ allowed)
    (hks : ∀ x ∈ ks, x ∈ allowed) :
    (get_earliest_valid_timestamp client k
        (runResolverCalls client (k :: ks) ⟨[], 0⟩)).1 =
      earliestValidTimestampBody client k ∧
    (get_earliest_valid_timestamp client k
        (runResolverCalls client (k :: ks) ⟨[], 0⟩)).2.calls =
      (runResolverCalls client (k :: ks) ⟨[], 0⟩).calls := by
  have hstep0 : runResolverCalls client (k :: ks) ⟨[], 0⟩ =
      runResolverCalls client ks
        ⟨[(k, earliestValidTimestampBody client k)], 1⟩ := rfl
  have hinv1 : CacheInv (earliestValidTimestampBody client) allowed
      [(k, earliestValidTimestampBody client k)] := by
    constructor
    · simp
    · intro p hp
      rcases List.mem_cons.mp hp with rfl | hp2
      · exact ⟨hk, rfl⟩
      · cases hp2
  have hkeep := runResolverCalls_keeps client allowed hlen ks hks
    ⟨[(k, earliestValidTimestampBody client k)], 1⟩ hinv1 k (by simp)
  rw [hstep0]
  have hlook := alookup_of_inv hkeep.1 hkeep.2
  rw [get_earliest_valid_timestamp, lruCall, hlook]
  exact ⟨rfl, rfl⟩

/-- Witness for C7 (amended): a repeated call with a single key is a cache
hit that issues no further client call and returns the resolved timestamp. -/
theorem resolver_memoization_witness :
    (get_earliest_valid_timestamp exClient ("BTCUSDT", "1h", .SPOT)
        (runResolverCalls exClient [("BTCUSDT", "1h", .SPOT)] ⟨[], 0⟩)).1 =
      earliestValidTimestampBody exClient ("BTCUSDT", "1h", .SPOT) ∧
    (get_earliest_valid_timestamp exClient ("BTCUSDT", "1h", .SPOT)
        (runResolverCalls exClient [("BTCUSDT", "1h", .SPOT)] ⟨[], 0⟩)).2.calls =
      (runResolverCalls exClient [("BTCUSDT", "1h", .SPOT)] ⟨[], 0⟩).calls :=
  resolver_memoization exClient [("BTCUSDT", "1h", .SPOT)] []
    ("BTCUSDT", "1h", .SPOT) (by decide)
    (List.mem_cons_self _ _) (by intro x hx; cases hx)

/-! ## C9: trade-model field validation -/

/-- C9 counterexample: a `BacktestTradeModel` with a negative `limit` and a
`start` that parses to a calendar datetime strictly after its `end`
(2021-01-02 versus 2021-01-01) is accepted by construction — no
invalid-field rejection happens at construction/validation time. -/
theorem tradeModel_invalid_accepted :
    (mkBacktestTradeModel "BTCUSDT" "1h" (some "2021-01-02 00:00:00")
        (some "2021-01-01 00:00:00") (-5) .SPOT ⟨[], [], [], [], [], []⟩
        0.001 0.0001 365.25).isOk = true ∧
      (-5 : ℤ) < 0 ∧
      strptimeYmdHms "2021-01-02 00:00:00" = some ⟨2021, 1, 2, 0, 0, 0⟩ ∧
      strptimeYmdHms "2021-01-01 00:00:00" = some ⟨2021, 1, 1, 0, 0, 0⟩ := by
  exact ⟨rfl, by decide, by decide, by decide⟩

/-- C9 (amended): construction performs no field-value validation — every
well-typed assignment, including a non-positive `limit` and `start ≥ end`,
is accepted.  A malformed `start` string is rejected only when
`get_start_datetime` first parses it with `strptime`, which happens before
any exchange I/O (the explicit-start branch performs no client call). -/
theorem tradeModel_validation_deferred :
    (∀ (symbol interval : String) (start endStr : Option String) (limit : ℤ)
        (klinesType : HistoricalKlinesType) (hist : OhlcvFrame)
        (tc sl tdpy : ℝ),
        (mkBacktestTradeModel symbol interval start endStr limit klinesType
          hist tc sl tdpy).isOk = true) ∧
      (∀ (client : ClientModel) (m : BaseTradeModel) (s : String),
        m.start = some s → strptimeYmdHms s = none →
          get_start_datetime client m = (.error .valueError, 0)) := by
  constructor
  · intro symbol interval start endStr limit klinesType hist tc sl tdpy
    rfl
  · intro client m s hs hp
    simp only [get_start_datetime, hs, hp]

/-- Witness for C9 (amended): a model whose start is `"not-a-date"` fails
with `ValueError` at first use, with zero exchange-client calls. -/
theorem tradeModel_validation_deferred_witness :
    (mkBacktestTradeModel "BTCUSDT" "1h" (some "not-a-date") none 1000 .SPOT
        ⟨[], [], [], [], [], []⟩ 0.001 0.0001 365.25).isOk = true ∧
      get_start_datetime exClient { start := some "not-a-date" } =
        (.error .valueError, 0) :=
  ⟨tradeModel_validation_deferred.1 "BTCUSDT" "1h" (some "not-a-date") none
      1000 .SPOT ⟨[], [], [], [], [], []⟩ 0.001 0.0001 365.25,
    tradeModel_validation_deferred.2 exClient { start := some "not-a-date" }
      "not-a-date" rfl (by decide)⟩

end CBAIT
